import Mathlib

/-!
Shallow embedding of the resilient request client in
`src/frontend/utils/api_client.py`: circuit breaker, TTL response cache,
retry with exponential backoff and jitter, and the fallback chain.

Conventions of the embedding:
* Wall-clock instants for the circuit breaker (`datetime.now()`) are `Int`
  (seconds); instants for the cache (`time.time()`) and the backoff delays
  are `ℚ`.
* Python exceptions become explicit result values (`AttemptResult`,
  `RunResult`); the breaker's "Circuit breaker is OPEN" exception is
  `ExnKind.circuitOpen`.
* The nondeterministic inputs of a run (the network's behaviour per live
  call, the clock at each attempt, the value drawn by `random.uniform`)
  are oracle functions passed explicitly.
* JSON payloads are modelled by the inductive `Payload`; `None` returned
  by a Python function is `Option.none` around it.
-/

namespace ApiClient

/-- JSON-like payloads exchanged with the backend (`response.json()` results,
fallback defaults, cached values). -/
inductive Payload where
  | list : List Payload → Payload
  | obj : List (String × Payload) → Payload
  | num : ℚ → Payload
  | str : String → Payload

/-- Python truthiness of a payload (`if fallback_data:`): empty list, empty
dict, zero and empty string are falsy. -/
def Payload.truthy : Payload → Bool
  | Payload.list xs => !xs.isEmpty
  | Payload.obj fs => !fs.isEmpty
  | Payload.num n => decide (n ≠ 0)
  | Payload.str s => !(s = "")

/-- The three circuit-breaker states (`'CLOSED'`, `'OPEN'`, `'HALF_OPEN'`). -/
inductive CircuitState where
  | Closed
  | Open
  | HalfOpen
deriving DecidableEq

/-- State of the `CircuitBreaker` class: configuration plus mutable fields. -/
structure CircuitBreaker where
  failure_threshold : Nat
  recovery_timeout : Int
  failure_count : Nat
  last_failure_time : Option Int
  state : CircuitState
deriving DecidableEq

/-- `CircuitBreaker.__init__`: `failure_count = 0`, `last_failure_time = None`,
`state = 'CLOSED'`. -/
def CircuitBreaker.init (ft : Nat) (rt : Int) : CircuitBreaker :=
  { failure_threshold := ft
    recovery_timeout := rt
    failure_count := 0
    last_failure_time := none
    state := CircuitState.Closed }

/-- Exceptions observed by the retry loop. -/
inductive ExnKind where
  | timeoutExn
  | circuitOpen
  | otherExn
deriving DecidableEq

/-- Behaviour of one invocation of the wrapped function: it either returns a
value (possibly `None`) or raises. -/
inductive AttemptResult where
  | ret : Option Payload → AttemptResult
  | raise : ExnKind → AttemptResult

/-- Outcome of `CircuitBreaker.call` as seen by its caller. -/
inductive CbOutcome where
  | returned : Option Payload → CbOutcome
  | raised : ExnKind → CbOutcome

/-- `CircuitBreaker.call(self, func, ...)`.  `fr` is the behaviour the wrapped
function would have if invoked; the `Bool` component records whether the
function was actually invoked (it is not when the open breaker rejects the
call).  `now` plays `datetime.now()`. -/
def CircuitBreaker.call (cb : CircuitBreaker) (now : Int) (fr : AttemptResult) :
    CbOutcome × Bool × CircuitBreaker :=
  if cb.state = CircuitState.Open ∧
      ¬ (cb.recovery_timeout < now - (cb.last_failure_time.getD 0)) then
    (CbOutcome.raised ExnKind.circuitOpen, false, cb)
  else
    let cb1 := if cb.state = CircuitState.Open then
      { cb with state := CircuitState.HalfOpen } else cb
    match fr with
    | AttemptResult.ret v =>
        if cb1.state = CircuitState.HalfOpen then
          (CbOutcome.returned v, true,
            { cb1 with state := CircuitState.Closed, failure_count := 0 })
        else
          (CbOutcome.returned v, true, cb1)
    | AttemptResult.raise e =>
        (CbOutcome.raised e, true,
          { cb1 with
            failure_count := cb1.failure_count + 1
            last_failure_time := some now
            state := if cb1.failure_threshold ≤ cb1.failure_count + 1 then
              CircuitState.Open else cb1.state })

/-- Fold a sequence of failing calls (time, exception kind) through the
breaker, keeping only the breaker state. -/
def runFailures (cb : CircuitBreaker) (fs : List (Int × ExnKind)) : CircuitBreaker :=
  fs.foldl (fun c f => (CircuitBreaker.call c f.1 (AttemptResult.raise f.2)).2.2) cb

/-! ### Response cache (`api_cache`, `CACHE_DURATION`, `with_cache`) -/

/-- The module-level dict `api_cache`: key ↦ (cached payload, store time). -/
abbrev Cache := List (String × Payload × ℚ)

/-- `CACHE_DURATION = 30  # seconds`. -/
def CACHE_DURATION : ℚ := 30

/-- Dict lookup `api_cache[cache_key]` / `cache_key in api_cache`. -/
def cacheLookup : Cache → String → Option (Payload × ℚ)
  | [], _ => none
  | (k0, v0, t0) :: rest, k =>
      if k0 = k then some (v0, t0) else cacheLookup rest k

/-- Dict assignment `api_cache[cache_key] = (result, now)`. -/
def cacheInsert : Cache → String → Payload → ℚ → Cache
  | [], k, v, t => [(k, v, t)]
  | (k0, v0, t0) :: rest, k, v, t =>
      if k0 = k then (k, v, t) :: rest
      else (k0, v0, t0) :: cacheInsert rest k v t

/-- Body of the `with_cache` decorator's `wrapper`, for one call: `cache` is
`api_cache`, `key` the derived cache key, `now` is `time.time()`, and
`funcResult` the value the wrapped function returns if called.  Returns the
wrapper's result together with the updated `api_cache`. -/
def with_cache (cache : Cache) (key : String) (now : ℚ)
    (funcResult : Option Payload) : Option Payload × Cache :=
  match cacheLookup cache key with
  | some (cachedData, timestamp) =>
      if now - timestamp < CACHE_DURATION then (some cachedData, cache)
      else
        match funcResult with
        | some r => (some r, cacheInsert cache key r now)
        | none => (none, cache)
  | none =>
      match funcResult with
      | some r => (some r, cacheInsert cache key r now)
      | none => (none, cache)

/-! ### String helpers

Python's `sub in s` and `s.endswith(t)` on the endpoint string, implemented
over the character list so that they reduce in the kernel. -/

/-- `needle` is a leading segment of `hay`. -/
def beginsWith : List Char → List Char → Bool
  | [], _ => true
  | _ :: _, [] => false
  | a :: as, b :: bs => a = b && beginsWith as bs

/-- `needle` occurs contiguously somewhere in `hay`. -/
def hasSub : List Char → List Char → Bool
  | hay, needle =>
      beginsWith needle hay ||
        match hay with
        | [] => false
        | _ :: t => hasSub t needle

/-- Python `sub in s` for strings. -/
def strContains (s sub : String) : Bool := hasSub s.data sub.data

/-- Python `s.endswith(t)`. -/
def strEndsWith (s t : String) : Bool := beginsWith t.data.reverse s.data.reverse

/-! ### Fallback chain -/

/-- The `fallback_map` literal in `get_fallback_data`: value for `"/stats"`. -/
def statsDefault : Payload :=
  Payload.obj
    [("overview", Payload.obj
        [("total_venues", Payload.num 0),
         ("total_events", Payload.num 0),
         ("total_bookings", Payload.num 0),
         ("total_ticket_types", Payload.num 0),
         ("total_tickets_sold", Payload.num 0)]),
     ("revenue", Payload.obj
        [("total_revenue", Payload.num 0),
         ("pending_revenue", Payload.num 0),
         ("confirmed_revenue", Payload.num 0)]),
     ("booking_status_breakdown", Payload.obj [])]

/-- The `fallback_map` value for `"/stats/ticket-type-analysis"`. -/
def ticketTypeAnalysisDefault : Payload :=
  Payload.obj
    [("ticket_types", Payload.list []),
     ("summary", Payload.obj
        [("total_tickets_sold", Payload.num 0),
         ("total_revenue", Payload.num 0)])]

/-- `get_fallback_data(endpoint)`: `fallback_map.get(endpoint)`. -/
def get_fallback_data (endpoint : String) : Option Payload :=
  if endpoint = "/venues" then some (Payload.list [])
  else if endpoint = "/events" then some (Payload.list [])
  else if endpoint = "/bookings" then some (Payload.list [])
  else if endpoint = "/ticket-types" then some (Payload.list [])
  else if endpoint = "/stats" then some statsDefault
  else if endpoint = "/stats/busiest-venues" then some (Payload.list [])
  else if endpoint = "/stats/popular-events" then some (Payload.list [])
  else if endpoint = "/stats/ticket-type-analysis" then some ticketTypeAnalysisDefault
  else if endpoint = "/stats/revenue-by-month" then some (Payload.list [])
  else none

/-- `get_empty_response_structure(endpoint)`: stats endpoints reuse
`get_fallback_data`; endpoints ending in `"s"` give an empty list; anything
else gives `None`. -/
def get_empty_response_structure (endpoint : String) : Option Payload :=
  if strContains endpoint ("/stats/") || endpoint = "/stats" then
    get_fallback_data endpoint
  else if strEndsWith endpoint ("s") then some (Payload.list [])
  else none

/-- The cache key built inside `try_fallback_strategies`:
`f"{endpoint}_{str(params) if params else 'no_params'}"`.  `params` is the
`str()` rendering of a non-empty params dict, or `none`. -/
def fallback_cache_key (endpoint : String) (params : Option String) : String :=
  endpoint ++ "_" ++ (match params with | some s => s | none => "no_params")

/-- `try_fallback_strategies(endpoint, params)`: cached entry (regardless of
age), else truthy static default, else empty-shape inference. -/
def try_fallback_strategies (cache : Cache) (endpoint : String)
    (params : Option String) : Option Payload :=
  match cacheLookup cache (fallback_cache_key endpoint params) with
  | some (cachedData, _) => some cachedData
  | none =>
      match get_fallback_data endpoint with
      | some fallbackData =>
          if fallbackData.truthy then some fallbackData
          else get_empty_response_structure endpoint
      | none => get_empty_response_structure endpoint

/-! ### `make_request` and the retry loop -/

/-- HTTP methods accepted by `make_request_raw`. -/
inductive Method where
  | GET
  | POST
  | PUT
  | PATCH
  | DELETE
deriving DecidableEq

/-- POST/PUT/PATCH/DELETE are the mutating methods. -/
def Method.isMutating : Method → Bool
  | Method.GET => false
  | _ => true

/-- What the network does on one live call issued by `make_request_raw`:
a decodable HTTP response, a response whose body fails JSON decoding (only
reachable with status < 400), a `ConnectionError`, a `Timeout`, or another
`RequestException`. -/
inductive NetOutcome where
  | http : Nat → Payload → NetOutcome
  | badJson : NetOutcome
  | connError : NetOutcome
  | timeout : NetOutcome
  | reqError : NetOutcome

/-- One execution of the body of `make_request` (the function the retry
decorator wraps), given the network outcome `o` of its single
`make_request_raw` call. -/
def make_request_body (method : Method) (endpoint : String)
    (params : Option String) (use_fallback : Bool) (cache : Cache)
    (o : NetOutcome) : AttemptResult :=
  match o with
  | NetOutcome.http status _body =>
      if status < 400 then AttemptResult.ret (some _body)
      else if use_fallback ∧ method = Method.GET then
        AttemptResult.ret (try_fallback_strategies cache endpoint params)
      else AttemptResult.ret none
  | NetOutcome.badJson => AttemptResult.ret none
  | NetOutcome.connError =>
      if use_fallback then
        (if method = Method.GET then
          AttemptResult.ret (try_fallback_strategies cache endpoint params)
         else AttemptResult.ret none)
      else AttemptResult.ret none
  | NetOutcome.timeout => AttemptResult.raise ExnKind.timeoutExn
  | NetOutcome.reqError => AttemptResult.ret none

/-- What a whole decorated call produces: a returned value or an uncaught
exception. -/
inductive RunResult where
  | ret : Option Payload → RunResult
  | exn : ExnKind → RunResult

/-- Observable trace of one decorated call: its result, how many times the
wrapped function actually ran, the `time.sleep` durations, and the final
breaker state. -/
structure RunTrace where
  result : RunResult
  funcInvocations : Nat
  delays : List ℚ
  cb : CircuitBreaker

/-- The loop inside `retry_with_backoff`'s `wrapper`.  `remaining` counts the
attempts still allowed after the current one (`max_retries - attempt`);
`invoked` counts wrapped-function invocations so far; `func i` is the
behaviour of the wrapped function on its `i`-th invocation; `times a` is the
clock at attempt `a`; `jitters a` is the value `random.uniform(0.1, 0.3)`
drawn at attempt `a`. -/
def retryAux (func : Nat → AttemptResult) (times : Nat → Int)
    (jitters : Nat → ℚ) (base_delay max_delay : ℚ) :
    Nat → Nat → Nat → CircuitBreaker → List ℚ → RunTrace
  | remaining, attempt, invoked, cb, delays =>
    match CircuitBreaker.call cb (times attempt) (func invoked) with
    | (CbOutcome.returned v, _, cb2) =>
        { result := RunResult.ret v
          funcInvocations := invoked + 1
          delays := delays
          cb := cb2 }
    | (CbOutcome.raised e, invokedNow, cb2) =>
        let invoked2 := if invokedNow then invoked + 1 else invoked
        match remaining with
        | 0 =>
            { result := RunResult.exn e
              funcInvocations := invoked2
              delays := delays
              cb := cb2 }
        | r + 1 =>
            let d := min (base_delay * 2 ^ attempt) max_delay
            retryAux func times jitters base_delay max_delay r (attempt + 1)
              invoked2 cb2 (delays ++ [d + jitters attempt * d])

/-- `retry_with_backoff(max_retries, base_delay, max_delay)` applied to a
wrapped function with behaviour `func`, starting from breaker `cb`. -/
def retry_with_backoff (func : Nat → AttemptResult) (times : Nat → Int)
    (jitters : Nat → ℚ) (max_retries : Nat) (base_delay max_delay : ℚ)
    (cb : CircuitBreaker) : RunTrace :=
  retryAux func times jitters base_delay max_delay max_retries 0 0 cb []

/-- `make_request(method, endpoint, data, params, use_fallback)`: the body
wrapped by `@retry_with_backoff(max_retries=3)` (so `base_delay=1`,
`max_delay=10`).  `outcomes i` is the network's behaviour on the `i`-th live
call; the request body `data` never influences control flow and is omitted. -/
def make_request (method : Method) (endpoint : String) (params : Option String)
    (use_fallback : Bool) (cache : Cache) (outcomes : Nat → NetOutcome)
    (times : Nat → Int) (jitters : Nat → ℚ) (cb : CircuitBreaker) : RunTrace :=
  retry_with_backoff
    (fun i => make_request_body method endpoint params use_fallback cache (outcomes i))
    times jitters 3 1 10 cb

/-! ### Circuit breaker lemmas -/

theorem call_closed_ret (cb : CircuitBreaker) (h : cb.state = CircuitState.Closed)
    (now : Int) (v : Option Payload) :
    CircuitBreaker.call cb now (AttemptResult.ret v) = (CbOutcome.returned v, true, cb) := by
  simp [CircuitBreaker.call, h]

theorem call_closed_raise (cb : CircuitBreaker) (h : cb.state = CircuitState.Closed)
    (now : Int) (e : ExnKind) :
    CircuitBreaker.call cb now (AttemptResult.raise e) =
      (CbOutcome.raised e, true,
        { cb with
          failure_count := cb.failure_count + 1
          last_failure_time := some now
          state := if cb.failure_threshold ≤ cb.failure_count + 1 then
            CircuitState.Open else CircuitState.Closed }) := by
  simp [CircuitBreaker.call, h]

theorem call_open_rejected (cb : CircuitBreaker) (h : cb.state = CircuitState.Open)
    (now : Int)
    (hrt : ¬ (cb.recovery_timeout < now - (cb.last_failure_time.getD 0)))
    (fr : AttemptResult) :
    CircuitBreaker.call cb now fr = (CbOutcome.raised ExnKind.circuitOpen, false, cb) := by
  simp [CircuitBreaker.call, h, hrt]

theorem runFailures_nil (cb : CircuitBreaker) : runFailures cb [] = cb := rfl

theorem runFailures_append_one (cb : CircuitBreaker) (fs : List (Int × ExnKind))
    (g : Int × ExnKind) :
    runFailures cb (fs ++ [g]) =
      (CircuitBreaker.call (runFailures cb fs) g.1 (AttemptResult.raise g.2)).2.2 := by
  simp [runFailures, List.foldl_append]

theorem runFailures_closed_spec (fs : List (Int × ExnKind)) (cb : CircuitBreaker)
    (hst : cb.state = CircuitState.Closed)
    (hle : cb.failure_count + fs.length ≤ cb.failure_threshold) :
    (runFailures cb fs).failure_threshold = cb.failure_threshold ∧
    (runFailures cb fs).recovery_timeout = cb.recovery_timeout ∧
    (runFailures cb fs).failure_count = cb.failure_count + fs.length ∧
    (runFailures cb fs).last_failure_time =
      (fs.getLast?.elim cb.last_failure_time fun f => some f.1) ∧
    (runFailures cb fs).state =
      (if cb.failure_threshold ≤ cb.failure_count + fs.length ∧ fs ≠ [] then
        CircuitState.Open else CircuitState.Closed) := by
  induction fs using List.reverseRecOn with
  | nil =>
      simp [runFailures_nil, hst]
  | append_singleton fs g ih =>
      have hlen2 : (fs ++ [g]).length = fs.length + 1 := by simp
      rw [hlen2] at hle
      have hmidle : cb.failure_count + fs.length ≤ cb.failure_threshold := by omega
      obtain ⟨e1, e2, e3, e4, e5⟩ := ih hmidle
      have hmidst : (runFailures cb fs).state = CircuitState.Closed := by
        rw [e5, if_neg]
        rintro ⟨h1, -⟩
        omega
      rw [runFailures_append_one, call_closed_raise _ hmidst, hlen2]
      refine ⟨by simp [e1], by simp [e2], ?_, ?_, ?_⟩
      · dsimp only
        rw [e3]
        omega
      · simp [List.getLast?_concat]
      · have hiff : ((runFailures cb fs).failure_threshold ≤
              (runFailures cb fs).failure_count + 1) ↔
            (cb.failure_threshold ≤ cb.failure_count + (fs.length + 1) ∧
              fs ++ [g] ≠ []) := by
          rw [e1, e3]
          constructor
          · intro h
            exact ⟨by omega, by simp⟩
          · intro h
            omega
        dsimp only
        rw [if_congr hiff rfl rfl]

/-- C1: starting Closed with zero failures, any `failureThreshold`-long
sequence of consecutive call failures drives the breaker to Open, with
`failureCount` incremented at each step and `lastFailureTimestamp` set to the
last failure's time; a call attempted while `now - lastFailureTimestamp` has
not exceeded `recoveryTimeout` is rejected with the circuit-open signal, the
underlying function not being invoked (the `false` component) and the breaker
unchanged. -/
theorem C1_threshold_failures_open_then_reject (ft : Nat) (rt : Int)
    (fs : List (Int × ExnKind)) (hft : 1 ≤ ft) (hlen : fs.length = ft) :
    (runFailures (CircuitBreaker.init ft rt) fs).state = CircuitState.Open ∧
    (runFailures (CircuitBreaker.init ft rt) fs).failure_count = ft ∧
    (∀ i, i ≤ ft →
      (runFailures (CircuitBreaker.init ft rt) (fs.take i)).failure_count = i) ∧
    (runFailures (CircuitBreaker.init ft rt) fs).last_failure_time =
      fs.getLast?.map Prod.fst ∧
    (∀ now fr t, fs.getLast?.map Prod.fst = some t → now - t ≤ rt →
      CircuitBreaker.call (runFailures (CircuitBreaker.init ft rt) fs) now fr =
        (CbOutcome.raised ExnKind.circuitOpen, false,
          runFailures (CircuitBreaker.init ft rt) fs)) := by
  have hne : fs ≠ [] := by
    intro h
    rw [h] at hlen
    simp at hlen
    omega
  obtain ⟨e1, e2, e3, e4, e5⟩ :=
    runFailures_closed_spec fs (CircuitBreaker.init ft rt) rfl
      (by simp [CircuitBreaker.init, hlen])
  have hstate : (runFailures (CircuitBreaker.init ft rt) fs).state = CircuitState.Open := by
    rw [e5, if_pos]
    exact ⟨by simp [CircuitBreaker.init, hlen], hne⟩
  have hlast : (runFailures (CircuitBreaker.init ft rt) fs).last_failure_time =
      fs.getLast?.map Prod.fst := by
    rw [e4]
    cases hgl : fs.getLast? with
    | none => exact absurd (List.getLast?_eq_none_iff.mp hgl) hne
    | some g => simp
  refine ⟨hstate, by rw [e3]; simp [CircuitBreaker.init, hlen], ?_, hlast, ?_⟩
  · intro i hi
    obtain ⟨-, -, e3i, -, -⟩ :=
      runFailures_closed_spec (fs.take i) (CircuitBreaker.init ft rt) rfl
        (by simp [CircuitBreaker.init, hlen])
    rw [e3i]
    simp [CircuitBreaker.init, hlen]
    omega
  · intro now fr t hgl hle
    apply call_open_rejected _ hstate
    rw [hlast, hgl]
    simp only [Option.getD_some]
    rw [e2]
    simp [CircuitBreaker.init]
    omega

theorem C1_witness :
    (runFailures (CircuitBreaker.init 2 60)
        [(0, ExnKind.otherExn), (5, ExnKind.otherExn)]).state = CircuitState.Open ∧
    CircuitBreaker.call
        (runFailures (CircuitBreaker.init 2 60)
          [(0, ExnKind.otherExn), (5, ExnKind.otherExn)]) 30 (AttemptResult.ret none) =
      (CbOutcome.raised ExnKind.circuitOpen, false,
        runFailures (CircuitBreaker.init 2 60)
          [(0, ExnKind.otherExn), (5, ExnKind.otherExn)]) :=
  ⟨(C1_threshold_failures_open_then_reject 2 60
      [(0, ExnKind.otherExn), (5, ExnKind.otherExn)] (by decide) (by decide)).1,
   (C1_threshold_failures_open_then_reject 2 60
      [(0, ExnKind.otherExn), (5, ExnKind.otherExn)] (by decide) (by decide)).2.2.2.2
      30 (AttemptResult.ret none) 5 rfl (by decide)⟩

/-- C2: with the breaker Open (and, as on every reachable Open state,
`failureCount ≥ failureThreshold` and a recorded last-failure time) and
`now - lastFailureTimestamp` beyond `recoveryTimeout`, the next call is let
through (the `true` component: the wrapped function is invoked, via the
transient HalfOpen state); a successful trial closes the breaker and resets
`failureCount` to 0, while a failing trial sends it back to Open and stamps
`lastFailureTimestamp` with the failure's time. -/
theorem C2_half_open_trial (cb : CircuitBreaker) (now t : Int)
    (hopen : cb.state = CircuitState.Open)
    (hlast : cb.last_failure_time = some t)
    (hcount : cb.failure_threshold ≤ cb.failure_count)
    (hexp : cb.recovery_timeout < now - t) :
    (∀ fr, (CircuitBreaker.call cb now fr).2.1 = true) ∧
    (∀ v, CircuitBreaker.call cb now (AttemptResult.ret v) =
      (CbOutcome.returned v, true,
        { cb with state := CircuitState.Closed, failure_count := 0 })) ∧
    (∀ e, CircuitBreaker.call cb now (AttemptResult.raise e) =
      (CbOutcome.raised e, true,
        { cb with
          failure_count := cb.failure_count + 1
          last_failure_time := some now
          state := CircuitState.Open })) := by
  have hguard : ¬ (cb.state = CircuitState.Open ∧
      ¬ (cb.recovery_timeout < now - (cb.last_failure_time.getD 0))) := by
    rw [hlast]
    simp only [Option.getD_some]
    intro h
    exact h.2 hexp
  have hret : ∀ v, CircuitBreaker.call cb now (AttemptResult.ret v) =
      (CbOutcome.returned v, true,
        { cb with state := CircuitState.Closed, failure_count := 0 }) := by
    intro v
    simp only [CircuitBreaker.call, if_neg hguard, hopen]
    simp
    rw [hlast]
    simp only [Option.getD_some]
    omega
  have hraise : ∀ e, CircuitBreaker.call cb now (AttemptResult.raise e) =
      (CbOutcome.raised e, true,
        { cb with
          failure_count := cb.failure_count + 1
          last_failure_time := some now
          state := CircuitState.Open }) := by
    intro e
    simp only [CircuitBreaker.call, if_neg hguard, hopen]
    have hfc : cb.failure_threshold ≤ cb.failure_count + 1 := by omega
    simp [hfc]
    rw [hlast]
    simp only [Option.getD_some]
    omega
  refine ⟨?_, hret, hraise⟩
  intro fr
  cases fr with
  | ret v => rw [hret v]
  | raise e => rw [hraise e]

theorem C2_witness :
    (CircuitBreaker.call
        { failure_threshold := 2, recovery_timeout := 60, failure_count := 2,
          last_failure_time := some 0, state := CircuitState.Open }
        100 (AttemptResult.ret (some (Payload.list []))) =
      (CbOutcome.returned (some (Payload.list [])), true,
        { failure_threshold := 2, recovery_timeout := 60, failure_count := 0,
          last_failure_time := some 0, state := CircuitState.Closed })) ∧
    (CircuitBreaker.call
        { failure_threshold := 2, recovery_timeout := 60, failure_count := 2,
          last_failure_time := some 0, state := CircuitState.Open }
        100 (AttemptResult.raise ExnKind.timeoutExn) =
      (CbOutcome.raised ExnKind.timeoutExn, true,
        { failure_threshold := 2, recovery_timeout := 60, failure_count := 3,
          last_failure_time := some 100, state := CircuitState.Open })) :=
  ⟨(C2_half_open_trial _ 100 0 rfl rfl (by decide) (by decide)).2.1
      (some (Payload.list [])),
   (C2_half_open_trial _ 100 0 rfl rfl (by decide) (by decide)).2.2
      ExnKind.timeoutExn⟩

/-! ### Inversion lemmas for `CircuitBreaker.call` -/

theorem call_returned_inv (cb : CircuitBreaker) (now : Int) (fr : AttemptResult)
    (v : Option Payload) (w : Bool) (cb2 : CircuitBreaker)
    (h : CircuitBreaker.call cb now fr = (CbOutcome.returned v, w, cb2)) :
    fr = AttemptResult.ret v ∧ w = true := by
  cases fr with
  | ret u =>
      simp only [CircuitBreaker.call] at h
      split_ifs at h <;> simp_all
  | raise e =>
      simp only [CircuitBreaker.call] at h
      split_ifs at h <;> simp_all

theorem call_raised_invoked_inv (cb : CircuitBreaker) (now : Int) (fr : AttemptResult)
    (e : ExnKind) (cb2 : CircuitBreaker)
    (h : CircuitBreaker.call cb now fr = (CbOutcome.raised e, true, cb2)) :
    fr = AttemptResult.raise e := by
  cases fr with
  | ret u =>
      simp only [CircuitBreaker.call] at h
      split_ifs at h <;> simp_all
  | raise e0 =>
      simp only [CircuitBreaker.call] at h
      split_ifs at h <;> simp_all

theorem call_raised_rejected_inv (cb : CircuitBreaker) (now : Int) (fr : AttemptResult)
    (e : ExnKind) (cb2 : CircuitBreaker)
    (h : CircuitBreaker.call cb now fr = (CbOutcome.raised e, false, cb2)) :
    e = ExnKind.circuitOpen ∧ cb2 = cb := by
  cases fr with
  | ret u =>
      simp only [CircuitBreaker.call] at h
      split_ifs at h <;> simp_all
  | raise e0 =>
      simp only [CircuitBreaker.call] at h
      split_ifs at h <;> simp_all

/-! ### Lemmas about the retry loop -/

section RetryLemmas

variable (func : Nat → AttemptResult) (times : Nat → Int) (jitters : Nat → ℚ)
variable (base_delay max_delay : ℚ)

/-- The delay slept after attempt `k`: `min(base_delay * 2^k, max_delay)` plus
the jitter drawn for that attempt times the same quantity. -/
def dform (k : Nat) : ℚ :=
  min (base_delay * 2 ^ k) max_delay + jitters k * min (base_delay * 2 ^ k) max_delay

theorem retryAux_invocations_le (remaining : Nat) :
    ∀ (attempt invoked : Nat) (cb : CircuitBreaker) (delays : List ℚ),
      (retryAux func times jitters base_delay max_delay remaining attempt invoked cb
        delays).funcInvocations ≤ invoked + remaining + 1 := by
  induction remaining with
  | zero =>
      intro attempt invoked cb delays
      rcases hc : CircuitBreaker.call cb (times attempt) (func invoked) with ⟨o, w, cb2⟩
      rw [retryAux, hc]
      cases o with
      | returned v => simp
      | raised e => cases w <;> simp
  | succ r ih =>
      intro attempt invoked cb delays
      rcases hc : CircuitBreaker.call cb (times attempt) (func invoked) with ⟨o, w, cb2⟩
      rw [retryAux, hc]
      cases o with
      | returned v => simp
      | raised e =>
          cases w
          · simpa using le_trans (ih (attempt + 1) invoked cb2 _) (by omega)
          · simpa using le_trans (ih (attempt + 1) (invoked + 1) cb2 _) (by omega)

theorem retryAux_invocations_ge (remaining : Nat) :
    ∀ (attempt invoked : Nat) (cb : CircuitBreaker) (delays : List ℚ),
      invoked ≤ (retryAux func times jitters base_delay max_delay remaining attempt
        invoked cb delays).funcInvocations := by
  induction remaining with
  | zero =>
      intro attempt invoked cb delays
      rcases hc : CircuitBreaker.call cb (times attempt) (func invoked) with ⟨o, w, cb2⟩
      rw [retryAux, hc]
      cases o with
      | returned v => simp
      | raised e => cases w <;> simp
  | succ r ih =>
      intro attempt invoked cb delays
      rcases hc : CircuitBreaker.call cb (times attempt) (func invoked) with ⟨o, w, cb2⟩
      rw [retryAux, hc]
      cases o with
      | returned v => simp
      | raised e =>
          cases w
          · simpa using ih (attempt + 1) invoked cb2 _
          · simpa using le_trans (by omega) (ih (attempt + 1) (invoked + 1) cb2 _)

theorem retryAux_ret_inv (remaining : Nat) :
    ∀ (attempt invoked : Nat) (cb : CircuitBreaker) (delays : List ℚ)
      (v : Option Payload),
      (retryAux func times jitters base_delay max_delay remaining attempt invoked cb
        delays).result = RunResult.ret v →
      0 < (retryAux func times jitters base_delay max_delay remaining attempt invoked
        cb delays).funcInvocations ∧
      func ((retryAux func times jitters base_delay max_delay remaining attempt
        invoked cb delays).funcInvocations - 1) = AttemptResult.ret v := by
  induction remaining with
  | zero =>
      intro attempt invoked cb delays v
      rcases hc : CircuitBreaker.call cb (times attempt) (func invoked) with ⟨o, w, cb2⟩
      rw [retryAux, hc]
      cases o with
      | returned u =>
          intro hres
          simp at hres
          obtain ⟨hfr, -⟩ := call_returned_inv cb (times attempt) (func invoked) u w cb2 hc
          subst hres
          simpa using hfr
      | raised e => cases w <;> simp
  | succ r ih =>
      intro attempt invoked cb delays v
      rcases hc : CircuitBreaker.call cb (times attempt) (func invoked) with ⟨o, w, cb2⟩
      rw [retryAux, hc]
      cases o with
      | returned u =>
          intro hres
          simp at hres
          obtain ⟨hfr, -⟩ := call_returned_inv cb (times attempt) (func invoked) u w cb2 hc
          subst hres
          simpa using hfr
      | raised e =>
          cases w
          · simpa using ih (attempt + 1) invoked cb2 _ v
          · simpa using ih (attempt + 1) (invoked + 1) cb2 _ v

theorem retryAux_exn_inv (remaining : Nat) :
    ∀ (attempt invoked : Nat) (cb : CircuitBreaker) (delays : List ℚ) (e : ExnKind),
      (retryAux func times jitters base_delay max_delay remaining attempt invoked cb
        delays).result = RunResult.exn e →
      e = ExnKind.circuitOpen ∨
      (0 < (retryAux func times jitters base_delay max_delay remaining attempt invoked
          cb delays).funcInvocations ∧
        func ((retryAux func times jitters base_delay max_delay remaining attempt
          invoked cb delays).funcInvocations - 1) = AttemptResult.raise e) := by
  induction remaining with
  | zero =>
      intro attempt invoked cb delays e
      rcases hc : CircuitBreaker.call cb (times attempt) (func invoked) with ⟨o, w, cb2⟩
      rw [retryAux, hc]
      cases o with
      | returned u => simp
      | raised e0 =>
          cases w
          · intro hres
            simp at hres
            obtain ⟨he, -⟩ :=
              call_raised_rejected_inv cb (times attempt) (func invoked) e0 cb2 hc
            refine Or.inl ?_
            rw [← hres]
            exact he
          · intro hres
            simp at hres
            have hfr := call_raised_invoked_inv cb (times attempt) (func invoked) e0 cb2 hc
            refine Or.inr ⟨by simp, ?_⟩
            rw [← hres]
            simpa using hfr
  | succ r ih =>
      intro attempt invoked cb delays e
      rcases hc : CircuitBreaker.call cb (times attempt) (func invoked) with ⟨o, w, cb2⟩
      rw [retryAux, hc]
      cases o with
      | returned u => simp
      | raised e0 =>
          cases w
          · simpa using ih (attempt + 1) invoked cb2 _ e
          · simpa using ih (attempt + 1) (invoked + 1) cb2 _ e

theorem retryAux_delays_shape (remaining : Nat) :
    ∀ (attempt invoked : Nat) (cb : CircuitBreaker) (delays : List ℚ),
      ∃ m, m ≤ remaining ∧
        (retryAux func times jitters base_delay max_delay remaining attempt invoked cb
          delays).delays =
          delays ++ (List.range' attempt m).map (dform jitters base_delay max_delay) := by
  induction remaining with
  | zero =>
      intro attempt invoked cb delays
      rcases hc : CircuitBreaker.call cb (times attempt) (func invoked) with ⟨o, w, cb2⟩
      rw [retryAux, hc]
      cases o with
      | returned v => exact ⟨0, le_refl 0, by simp⟩
      | raised e => cases w <;> exact ⟨0, le_refl 0, by simp⟩
  | succ r ih =>
      intro attempt invoked cb delays
      rcases hc : CircuitBreaker.call cb (times attempt) (func invoked) with ⟨o, w, cb2⟩
      rw [retryAux, hc]
      cases o with
      | returned v => exact ⟨0, Nat.zero_le _, by simp⟩
      | raised e =>
          cases w
          · obtain ⟨m, hm, hd⟩ := ih (attempt + 1) invoked cb2
              (delays ++ [dform jitters base_delay max_delay attempt])
            refine ⟨m + 1, by omega, ?_⟩
            show (retryAux func times jitters base_delay max_delay r (attempt + 1)
                invoked cb2
                (delays ++ [dform jitters base_delay max_delay attempt])).delays =
              delays ++ (List.range' attempt (m + 1)).map
                (dform jitters base_delay max_delay)
            rw [hd, List.range'_succ, List.map_cons]
            simp
          · obtain ⟨m, hm, hd⟩ := ih (attempt + 1) (invoked + 1) cb2
              (delays ++ [dform jitters base_delay max_delay attempt])
            refine ⟨m + 1, by omega, ?_⟩
            show (retryAux func times jitters base_delay max_delay r (attempt + 1)
                (invoked + 1) cb2
                (delays ++ [dform jitters base_delay max_delay attempt])).delays =
              delays ++ (List.range' attempt (m + 1)).map
                (dform jitters base_delay max_delay)
            rw [hd, List.range'_succ, List.map_cons]
            simp

theorem retryAux_open_stall (remaining : Nat) :
    ∀ (attempt invoked : Nat) (cb : CircuitBreaker) (delays : List ℚ),
      cb.state = CircuitState.Open →
      (∀ a, attempt ≤ a → a ≤ attempt + remaining →
        ¬ (cb.recovery_timeout < times a - (cb.last_failure_time.getD 0))) →
      (retryAux func times jitters base_delay max_delay remaining attempt invoked cb
          delays).result = RunResult.exn ExnKind.circuitOpen ∧
      (retryAux func times jitters base_delay max_delay remaining attempt invoked cb
          delays).funcInvocations = invoked ∧
      (retryAux func times jitters base_delay max_delay remaining attempt invoked cb
          delays).cb = cb := by
  induction remaining with
  | zero =>
      intro attempt invoked cb delays hopen hrt
      have hc := call_open_rejected cb hopen (times attempt)
        (hrt attempt (le_refl attempt) (by omega)) (func invoked)
      rw [retryAux, hc]
      simp
  | succ r ih =>
      intro attempt invoked cb delays hopen hrt
      have hc := call_open_rejected cb hopen (times attempt)
        (hrt attempt (le_refl attempt) (by omega)) (func invoked)
      rw [retryAux, hc]
      simpa using ih (attempt + 1) invoked cb _ hopen
        (fun a h1 h2 => hrt a (by omega) (by omega))

theorem retryAux_first_ret (remaining attempt invoked : Nat) (cb cb2 : CircuitBreaker)
    (delays : List ℚ) (v : Option Payload) (w : Bool)
    (h : CircuitBreaker.call cb (times attempt) (func invoked) =
      (CbOutcome.returned v, w, cb2)) :
    retryAux func times jitters base_delay max_delay remaining attempt invoked cb
        delays =
      { result := RunResult.ret v, funcInvocations := invoked + 1, delays := delays,
        cb := cb2 } := by
  cases remaining <;> rw [retryAux, h]

theorem retryAux_zero_raise (attempt invoked : Nat) (cb cb2 : CircuitBreaker)
    (delays : List ℚ) (e : ExnKind) (w : Bool)
    (h : CircuitBreaker.call cb (times attempt) (func invoked) =
      (CbOutcome.raised e, w, cb2)) :
    retryAux func times jitters base_delay max_delay 0 attempt invoked cb delays =
      { result := RunResult.exn e,
        funcInvocations := if w = true then invoked + 1 else invoked,
        delays := delays, cb := cb2 } := by
  rw [retryAux, h]

theorem retryAux_succ_raise (r attempt invoked : Nat) (cb cb2 : CircuitBreaker)
    (delays : List ℚ) (e : ExnKind) (w : Bool)
    (h : CircuitBreaker.call cb (times attempt) (func invoked) =
      (CbOutcome.raised e, w, cb2)) :
    retryAux func times jitters base_delay max_delay (r + 1) attempt invoked cb
        delays =
      retryAux func times jitters base_delay max_delay r (attempt + 1)
        (if w = true then invoked + 1 else invoked) cb2
        (delays ++ [dform jitters base_delay max_delay attempt]) := by
  rw [retryAux, h]
  rfl

theorem retryAux_closed_invokes (remaining attempt invoked : Nat)
    (cb : CircuitBreaker) (delays : List ℚ)
    (hst : cb.state = CircuitState.Closed) :
    invoked + 1 ≤ (retryAux func times jitters base_delay max_delay remaining attempt
      invoked cb delays).funcInvocations := by
  cases hfr : func invoked with
  | ret v =>
      have hc := call_closed_ret cb hst (times attempt) v
      rw [← hfr] at hc
      rw [retryAux_first_ret func times jitters base_delay max_delay remaining attempt
        invoked cb cb delays v true hc]
  | raise e =>
      have hc := call_closed_raise cb hst (times attempt) e
      rw [← hfr] at hc
      cases remaining with
      | zero =>
          rw [retryAux_zero_raise func times jitters base_delay max_delay attempt
            invoked cb _ delays e true hc]
          simp
      | succ r =>
          rw [retryAux_succ_raise func times jitters base_delay max_delay r attempt
            invoked cb _ delays e true hc]
          simpa using retryAux_invocations_ge func times jitters base_delay max_delay
            r (attempt + 1) (invoked + 1) _
            (delays ++ [dform jitters base_delay max_delay attempt])

end RetryLemmas

/-! ### Lemmas about `make_request_body` -/

theorem isMutating_not_GET (method : Method) (hm : method.isMutating = true) :
    ¬ (method = Method.GET) := by
  cases method <;> simp_all [Method.isMutating]

theorem make_request_body_mutating_ret (method : Method) (endpoint : String)
    (params : Option String) (uf : Bool) (cache : Cache) (o : NetOutcome)
    (v : Payload) (hm : method.isMutating = true)
    (h : make_request_body method endpoint params uf cache o =
      AttemptResult.ret (some v)) :
    ∃ s, s < 400 ∧ o = NetOutcome.http s v := by
  have hng := isMutating_not_GET method hm
  cases o with
  | http status body =>
      simp only [make_request_body] at h
      split_ifs at h with h1 h2
      · simp at h
        subst h
        exact ⟨status, h1, rfl⟩
      · exact absurd h2.2 hng
      · simp at h
  | badJson => simp [make_request_body] at h
  | connError =>
      simp only [make_request_body] at h
      split_ifs at h <;> simp_all
  | timeout => simp [make_request_body] at h
  | reqError => simp [make_request_body] at h

theorem make_request_body_connError_mutating (method : Method) (endpoint : String)
    (params : Option String) (uf : Bool) (cache : Cache)
    (hm : method.isMutating = true) :
    make_request_body method endpoint params uf cache NetOutcome.connError =
      AttemptResult.ret none := by
  have hng := isMutating_not_GET method hm
  cases uf <;> simp [make_request_body, hng]

theorem make_request_body_http_ge400 (method : Method) (endpoint : String)
    (params : Option String) (uf : Bool) (cache : Cache) (s : Nat) (b : Payload)
    (hs : 400 ≤ s) :
    make_request_body method endpoint params uf cache (NetOutcome.http s b) =
      AttemptResult.ret
        (if uf ∧ method = Method.GET then
          try_fallback_strategies cache endpoint params
        else none) := by
  simp only [make_request_body]
  rw [if_neg (by omega : ¬ (s < 400)), apply_ite AttemptResult.ret]

/-! ### C3: mutating requests never get cached or fallback data -/

/-- C3: for a mutating method, whatever the breaker state, the cache contents
and the network behaviour, `make_request` can only return a payload that is
the body of an HTTP response with status < 400 obtained by its last live call
— never a cache or fallback value; and while the breaker is Open within the
recovery window at every attempt time, the circuit-open exception is
propagated to the caller with the wrapped function never invoked. -/
theorem C3_mutating_never_cached_or_fallback (method : Method) (endpoint : String)
    (params : Option String) (uf : Bool) (cache : Cache)
    (outcomes : Nat → NetOutcome) (times : Nat → Int) (jitters : Nat → ℚ)
    (cb : CircuitBreaker) (hm : method.isMutating = true) :
    (∀ v,
      (make_request method endpoint params uf cache outcomes times jitters cb).result
          = RunResult.ret (some v) →
      ∃ s, s < 400 ∧
        outcomes ((make_request method endpoint params uf cache outcomes times
          jitters cb).funcInvocations - 1) = NetOutcome.http s v) ∧
    (cb.state = CircuitState.Open →
      (∀ a, a ≤ 3 →
        ¬ (cb.recovery_timeout < times a - (cb.last_failure_time.getD 0))) →
      (make_request method endpoint params uf cache outcomes times jitters cb).result
          = RunResult.exn ExnKind.circuitOpen ∧
      (make_request method endpoint params uf cache outcomes times jitters
        cb).funcInvocations = 0 ∧
      (make_request method endpoint params uf cache outcomes times jitters cb).cb
          = cb) := by
  constructor
  · intro v hres
    obtain ⟨hpos, hfr⟩ :=
      retryAux_ret_inv
        (fun i => make_request_body method endpoint params uf cache (outcomes i))
        times jitters 1 10 3 0 0 cb [] (some v) hres
    exact make_request_body_mutating_ret method endpoint params uf cache _ v hm hfr
  · intro hopen hrt
    exact retryAux_open_stall
      (fun i => make_request_body method endpoint params uf cache (outcomes i))
      times jitters 1 10 3 0 0 cb [] hopen
      (fun a h1 h2 => hrt a (by omega))

theorem C3_witness :
    (make_request Method.POST ("/bookings") none true []
        (fun _ => NetOutcome.timeout) (fun _ => 1) (fun _ => 1/5)
        { failure_threshold := 5, recovery_timeout := 60, failure_count := 5,
          last_failure_time := some 0, state := CircuitState.Open }).result =
      RunResult.exn ExnKind.circuitOpen ∧
    (make_request Method.POST ("/bookings") none true []
        (fun _ => NetOutcome.timeout) (fun _ => 1) (fun _ => 1/5)
        { failure_threshold := 5, recovery_timeout := 60, failure_count := 5,
          last_failure_time := some 0, state := CircuitState.Open }).funcInvocations
      = 0 ∧
    (make_request Method.POST ("/bookings") none true []
        (fun _ => NetOutcome.timeout) (fun _ => 1) (fun _ => 1/5)
        { failure_threshold := 5, recovery_timeout := 60, failure_count := 5,
          last_failure_time := some 0, state := CircuitState.Open }).cb =
      { failure_threshold := 5, recovery_timeout := 60, failure_count := 5,
        last_failure_time := some 0, state := CircuitState.Open } :=
  (C3_mutating_never_cached_or_fallback Method.POST ("/bookings") none true []
      (fun _ => NetOutcome.timeout) (fun _ => 1) (fun _ => 1/5)
      { failure_threshold := 5, recovery_timeout := 60, failure_count := 5,
        last_failure_time := some 0, state := CircuitState.Open } rfl).2 rfl
    (fun a ha => by decide)

/-! ### C4: status-code classification -/

/-- C4 counterexample: an HTTP 500 response on a GET is *not* retried (the
wrapped function runs exactly once out of the 4 allowed attempts), does *not*
count toward the breaker (failure count stays 0, state stays Closed), and the
caller receives fallback data rather than an error; likewise an HTTP 404 on a
GET with fallback enabled yields fallback data, not an immediately surfaced
client error. -/
theorem C4_counterexample :
    (make_request Method.GET ("/venues") none true []
        (fun _ => NetOutcome.http 500 (Payload.list [])) (fun _ => 0)
        (fun _ => 1/5) (CircuitBreaker.init 5 60)).funcInvocations = 1 ∧
    (make_request Method.GET ("/venues") none true []
        (fun _ => NetOutcome.http 500 (Payload.list [])) (fun _ => 0)
        (fun _ => 1/5) (CircuitBreaker.init 5 60)).cb.failure_count = 0 ∧
    (make_request Method.GET ("/venues") none true []
        (fun _ => NetOutcome.http 500 (Payload.list [])) (fun _ => 0)
        (fun _ => 1/5) (CircuitBreaker.init 5 60)).cb.state = CircuitState.Closed ∧
    (make_request Method.GET ("/venues") none true []
        (fun _ => NetOutcome.http 500 (Payload.list [])) (fun _ => 0)
        (fun _ => 1/5) (CircuitBreaker.init 5 60)).result =
      RunResult.ret (some (Payload.list [])) ∧
    (make_request Method.GET ("/venues") none true []
        (fun _ => NetOutcome.http 404 (Payload.list [])) (fun _ => 0)
        (fun _ => 1/5) (CircuitBreaker.init 5 60)).result =
      RunResult.ret (some (Payload.list [])) :=
  ⟨rfl, rfl, rfl, rfl, rfl⟩

/-- C4 amended: every HTTP response with status ≥ 400 — 5xx exactly like 4xx
— terminates `make_request` on the first attempt: no retry, no breaker
accounting (breaker returned unchanged from a Closed state), and the result
is the fallback-chain value for GETs with fallback enabled, `None`
otherwise. -/
theorem C4_http_error_single_attempt (method : Method) (endpoint : String)
    (params : Option String) (uf : Bool) (cache : Cache)
    (outcomes : Nat → NetOutcome) (times : Nat → Int) (jitters : Nat → ℚ)
    (cb : CircuitBreaker) (s : Nat) (b : Payload)
    (hst : cb.state = CircuitState.Closed) (hs : 400 ≤ s)
    (ho : outcomes 0 = NetOutcome.http s b) :
    make_request method endpoint params uf cache outcomes times jitters cb =
      { result := RunResult.ret
          (if uf ∧ method = Method.GET then
            try_fallback_strategies cache endpoint params
          else none),
        funcInvocations := 1, delays := [], cb := cb } := by
  show retryAux
      (fun i => make_request_body method endpoint params uf cache (outcomes i))
      times jitters 1 10 3 0 0 cb [] = _
  refine retryAux_first_ret _ times jitters 1 10 3 0 0 cb cb [] _ true ?_
  show CircuitBreaker.call cb (times 0)
      (make_request_body method endpoint params uf cache (outcomes 0)) = _
  rw [ho, make_request_body_http_ge400 method endpoint params uf cache s b hs]
  exact call_closed_ret cb hst (times 0) _

theorem C4_witness :
    make_request Method.POST ("/bookings") none true []
        (fun _ => NetOutcome.http 500 (Payload.obj [])) (fun _ => 0)
        (fun _ => 1/5) (CircuitBreaker.init 5 60) =
      { result := RunResult.ret none, funcInvocations := 1, delays := [],
        cb := CircuitBreaker.init 5 60 } := by
  have h := C4_http_error_single_attempt Method.POST ("/bookings") none true []
    (fun _ => NetOutcome.http 500 (Payload.obj [])) (fun _ => 0) (fun _ => 1/5)
    (CircuitBreaker.init 5 60) 500 (Payload.obj []) rfl (by decide) rfl
  simpa using h

/-! ### C5: the retry policy -/

/-- C5: with `max_retries = 3` (and the decorator defaults `base_delay = 1`,
`max_delay = 10`), the wrapped function is invoked at most 4 times; at most 3
sleeps happen and the `i`-th sleep lasts exactly
`min(base_delay * 2^i, max_delay)` plus the drawn jitter factor (in
`[0.1, 0.3]`) times that same quantity (`dform`); the sleep sequence is
non-decreasing and bounded by `max_delay` plus `0.3 * max_delay`; and when
the run ends in an exception it is either the circuit-open signal or exactly
the exception raised by the last invocation — never swallowed. -/
theorem C5_retry_backoff_bounds (func : Nat → AttemptResult) (times : Nat → Int)
    (jitters : Nat → ℚ) (cb : CircuitBreaker)
    (hj : ∀ i, 1/10 ≤ jitters i ∧ jitters i ≤ 3/10) :
    (retry_with_backoff func times jitters 3 1 10 cb).funcInvocations ≤ 4 ∧
    (retry_with_backoff func times jitters 3 1 10 cb).delays.length ≤ 3 ∧
    (retry_with_backoff func times jitters 3 1 10 cb).delays =
      (List.range
        (retry_with_backoff func times jitters 3 1 10 cb).delays.length).map
        (dform jitters 1 10) ∧
    List.Chain' (fun x y => x ≤ y)
      (retry_with_backoff func times jitters 3 1 10 cb).delays ∧
    (∀ d ∈ (retry_with_backoff func times jitters 3 1 10 cb).delays,
      d ≤ 10 + (3/10) * 10) ∧
    (∀ e, (retry_with_backoff func times jitters 3 1 10 cb).result =
        RunResult.exn e →
      e = ExnKind.circuitOpen ∨
      (0 < (retry_with_backoff func times jitters 3 1 10 cb).funcInvocations ∧
        func ((retry_with_backoff func times jitters 3 1 10 cb).funcInvocations - 1)
          = AttemptResult.raise e)) := by
  obtain ⟨m, hm, hd⟩ := retryAux_delays_shape func times jitters 1 10 3 0 0 cb []
  have hd' : (retry_with_backoff func times jitters 3 1 10 cb).delays =
      (List.range m).map (dform jitters 1 10) := by
    show (retryAux func times jitters 1 10 3 0 0 cb []).delays = _
    rw [hd, List.nil_append, List.range_eq_range']
  have hlen : (retry_with_backoff func times jitters 3 1 10 cb).delays.length = m := by
    rw [hd']
    simp
  refine ⟨?_, ?_, ?_, ?_, ?_, ?_⟩
  · exact le_trans
      (retryAux_invocations_le func times jitters 1 10 3 0 0 cb []) (by omega)
  · rw [hlen]
    exact hm
  · rw [hlen, hd']
  · rw [hd']
    have h0 := hj 0
    have h1 := hj 1
    have h2 := hj 2
    interval_cases m
    · simp
    · have hr : List.range 1 = [0] := rfl
      rw [hr, List.map_cons, List.map_nil]
      exact List.chain'_singleton _
    · have hr : List.range 2 = [0, 1] := rfl
      rw [hr]
      simp only [List.map_cons, List.map_nil, List.chain'_cons, List.chain'_singleton,
        and_true]
      rw [dform, dform]
      rw [min_eq_left (by norm_num : (1:ℚ) * 2 ^ 0 ≤ 10),
        min_eq_left (by norm_num : (1:ℚ) * 2 ^ 1 ≤ 10)]
      nlinarith
    · have hr : List.range 3 = [0, 1, 2] := rfl
      rw [hr]
      simp only [List.map_cons, List.map_nil, List.chain'_cons, List.chain'_singleton,
        and_true]
      rw [dform, dform, dform]
      rw [min_eq_left (by norm_num : (1:ℚ) * 2 ^ 0 ≤ 10),
        min_eq_left (by norm_num : (1:ℚ) * 2 ^ 1 ≤ 10),
        min_eq_left (by norm_num : (1:ℚ) * 2 ^ 2 ≤ 10)]
      constructor
      · nlinarith
      · nlinarith
  · intro d hdm
    rw [hd'] at hdm
    obtain ⟨k, hk, rfl⟩ := List.mem_map.mp hdm
    have hjk := hj k
    have hmin10 : min ((1:ℚ) * 2 ^ k) 10 ≤ 10 := min_le_right _ _
    have hmin0 : (0:ℚ) ≤ min ((1:ℚ) * 2 ^ k) 10 :=
      le_min (by positivity) (by norm_num)
    rw [dform]
    nlinarith [hjk.1, hjk.2]
  · intro e hres
    exact retryAux_exn_inv func times jitters 1 10 3 0 0 cb [] e hres

theorem C5_witness :
    (retry_with_backoff (fun _ => AttemptResult.raise ExnKind.timeoutExn)
      (fun _ => 0) (fun _ => 1/5) 3 1 10 (CircuitBreaker.init 5 60)).funcInvocations
      ≤ 4 ∧
    (retry_with_backoff (fun _ => AttemptResult.raise ExnKind.timeoutExn)
      (fun _ => 0) (fun _ => 1/5) 3 1 10 (CircuitBreaker.init 5 60)).delays.length
      ≤ 3 :=
  ⟨(C5_retry_backoff_bounds (fun _ => AttemptResult.raise ExnKind.timeoutExn)
      (fun _ => 0) (fun _ => 1/5) (CircuitBreaker.init 5 60)
      (fun i => ⟨by norm_num, by norm_num⟩)).1,
   (C5_retry_backoff_bounds (fun _ => AttemptResult.raise ExnKind.timeoutExn)
      (fun _ => 0) (fun _ => 1/5) (CircuitBreaker.init 5 60)
      (fun i => ⟨by norm_num, by norm_num⟩)).2.1⟩

/-! ### C6: mutating calls and automatic retries -/

/-- C6 counterexample: a POST whose first live call times out is
automatically retried by the decorator (the wrapped function runs twice) and
the second attempt's response is returned — there is no opt-in and no
mutating-method exemption in `make_request`. -/
theorem C6_counterexample :
    Method.POST.isMutating = true ∧
    (make_request Method.POST ("/bookings") none true []
        (fun i => if i = 0 then NetOutcome.timeout
          else NetOutcome.http 201 (Payload.obj []))
        (fun _ => 0) (fun _ => 1/5) (CircuitBreaker.init 5 60)).funcInvocations = 2 ∧
    (make_request Method.POST ("/bookings") none true []
        (fun i => if i = 0 then NetOutcome.timeout
          else NetOutcome.http 201 (Payload.obj []))
        (fun _ => 0) (fun _ => 1/5) (CircuitBreaker.init 5 60)).result =
      RunResult.ret (some (Payload.obj [])) :=
  ⟨rfl, rfl, rfl⟩

/-- C6 amended: mutating requests go through exactly the same retry wrapper
as reads, with no opt-in or opt-out: a first attempt that raises (a timeout)
is followed by a second invocation of the wrapped function whenever the
breaker stays Closed, while failure outcomes that are converted to return
values (a connection error) end the run after a single invocation with
`None`. -/
theorem C6_mutating_retried (method : Method) (endpoint : String)
    (params : Option String) (uf : Bool) (cache : Cache)
    (outcomes : Nat → NetOutcome) (times : Nat → Int) (jitters : Nat → ℚ)
    (cb : CircuitBreaker) (hm : method.isMutating = true)
    (hst : cb.state = CircuitState.Closed) :
    (outcomes 0 = NetOutcome.timeout →
      cb.failure_count + 1 < cb.failure_threshold →
      2 ≤ (make_request method endpoint params uf cache outcomes times jitters
        cb).funcInvocations) ∧
    (outcomes 0 = NetOutcome.connError →
      make_request method endpoint params uf cache outcomes times jitters cb =
        { result := RunResult.ret none, funcInvocations := 1, delays := [],
          cb := cb }) := by
  constructor
  · intro ho hcount
    have hcall0 : CircuitBreaker.call cb (times 0)
        (make_request_body method endpoint params uf cache (outcomes 0)) =
        (CbOutcome.raised ExnKind.timeoutExn, true,
          { cb with
            failure_count := cb.failure_count + 1
            last_failure_time := some (times 0)
            state := CircuitState.Closed }) := by
      rw [ho]
      show CircuitBreaker.call cb (times 0)
        (AttemptResult.raise ExnKind.timeoutExn) = _
      rw [call_closed_raise cb hst (times 0) ExnKind.timeoutExn,
        if_neg (by omega : ¬ (cb.failure_threshold ≤ cb.failure_count + 1))]
    have hstep : make_request method endpoint params uf cache outcomes times jitters
        cb =
        retryAux
          (fun i => make_request_body method endpoint params uf cache (outcomes i))
          times jitters 1 10 2 1 1
          { cb with
            failure_count := cb.failure_count + 1
            last_failure_time := some (times 0)
            state := CircuitState.Closed }
          ([] ++ [dform jitters 1 10 0]) := by
      show retryAux _ times jitters 1 10 3 0 0 cb [] = _
      exact retryAux_succ_raise _ times jitters 1 10 2 0 0 cb _ []
        ExnKind.timeoutExn true hcall0
    rw [hstep]
    exact retryAux_closed_invokes _ times jitters 1 10 2 1 1 _ _ rfl
  · intro ho
    have hbody : make_request_body method endpoint params uf cache (outcomes 0) =
        AttemptResult.ret none := by
      rw [ho]
      exact make_request_body_connError_mutating method endpoint params uf cache hm
    show retryAux _ times jitters 1 10 3 0 0 cb [] = _
    refine retryAux_first_ret _ times jitters 1 10 3 0 0 cb cb [] none true ?_
    show CircuitBreaker.call cb (times 0)
      (make_request_body method endpoint params uf cache (outcomes 0)) = _
    rw [hbody]
    exact call_closed_ret cb hst (times 0) none

theorem C6_witness :
    2 ≤ (make_request Method.PUT ("/ticket-types/1") none true []
        (fun _ => NetOutcome.timeout) (fun _ => 0) (fun _ => 1/5)
        (CircuitBreaker.init 5 60)).funcInvocations ∧
    make_request Method.DELETE ("/bookings/1") none true []
        (fun _ => NetOutcome.connError) (fun _ => 0) (fun _ => 1/5)
        (CircuitBreaker.init 5 60) =
      { result := RunResult.ret none, funcInvocations := 1, delays := [],
        cb := CircuitBreaker.init 5 60 } :=
  ⟨(C6_mutating_retried Method.PUT ("/ticket-types/1") none true []
      (fun _ => NetOutcome.timeout) (fun _ => 0) (fun _ => 1/5)
      (CircuitBreaker.init 5 60) rfl rfl).1 rfl (by decide),
   (C6_mutating_retried Method.DELETE ("/bookings/1") none true []
      (fun _ => NetOutcome.connError) (fun _ => 0) (fun _ => 1/5)
      (CircuitBreaker.init 5 60) rfl rfl).2 rfl⟩

/-! ### C7: the connection-error scenario -/

/-- C7 counterexample: with `failure_threshold = 5`, five consecutive GETs to
`/venues` that all hit connection errors leave the breaker exactly in its
initial Closed state (connection failures are turned into fallback return
values, so the breaker never records them and never opens); and even with the
collection cached by the success path under its key `"venues"`, such a GET
returns the static empty-list fallback — not the cached collection, and there
is no `degraded` tag anywhere in the result. -/
theorem C7_counterexample :
    ((List.range 5).foldl
        (fun c _ => (make_request Method.GET ("/venues") none true
          [("venues", Payload.list [Payload.str "cached-venue"], 0)]
          (fun _ => NetOutcome.connError) (fun _ => 0) (fun _ => 1/5) c).cb)
        (CircuitBreaker.init 5 60)) = CircuitBreaker.init 5 60 ∧
    (CircuitBreaker.init 5 60).state ≠ CircuitState.Open ∧
    (make_request Method.GET ("/venues") none true
        [("venues", Payload.list [Payload.str "cached-venue"], 0)]
        (fun _ => NetOutcome.connError) (fun _ => 0) (fun _ => 1/5)
        (CircuitBreaker.init 5 60)).result =
      RunResult.ret (some (Payload.list [])) ∧
    Payload.list [] ≠ Payload.list [Payload.str "cached-venue"] :=
  ⟨rfl, by simp [CircuitBreaker.init], rfl, by simp⟩

/-- C7 amended: with the breaker Closed, a GET to `/venues` with fallback
enabled that hits a connection error invokes the wrapped function once,
returns the fallback chain's value — the static empty list, since the
chain's first step looks up the cache under `endpoint_params`
(`"/venues_no_params"`), a key different from the success path's `"venues"`,
so a miss whenever only success-path entries exist — and leaves the breaker
untouched; in particular any number of consecutive such GETs leaves the
breaker Closed instead of opening it, and nothing tags the result as
degraded. -/
theorem C7_conn_errors_fallback_breaker_closed (cache : Cache)
    (times : Nat → Int) (jitters : Nat → ℚ) (cb : CircuitBreaker)
    (hmiss : cacheLookup cache (fallback_cache_key ("/venues") none) = none)
    (hst : cb.state = CircuitState.Closed) :
    make_request Method.GET ("/venues") none true cache
        (fun _ => NetOutcome.connError) times jitters cb =
      { result := RunResult.ret (some (Payload.list [])), funcInvocations := 1,
        delays := [], cb := cb } ∧
    fallback_cache_key ("/venues") none = "/venues_no_params" ∧
    ("venues" : String) ≠ fallback_cache_key ("/venues") none ∧
    (List.range 5).foldl
        (fun c _ => (make_request Method.GET ("/venues") none true cache
          (fun _ => NetOutcome.connError) times jitters c).cb) cb = cb := by
  have hfb : try_fallback_strategies cache ("/venues") none =
      some (Payload.list []) := by
    unfold try_fallback_strategies
    rw [hmiss]
    rfl
  have hbody : make_request_body Method.GET ("/venues") none true cache
      NetOutcome.connError = AttemptResult.ret (some (Payload.list [])) := by
    simp [make_request_body, hfb]
  have h1 : make_request Method.GET ("/venues") none true cache
      (fun _ => NetOutcome.connError) times jitters cb =
      { result := RunResult.ret (some (Payload.list [])), funcInvocations := 1,
        delays := [], cb := cb } := by
    show retryAux _ times jitters 1 10 3 0 0 cb [] = _
    refine retryAux_first_ret _ times jitters 1 10 3 0 0 cb cb [] _ true ?_
    show CircuitBreaker.call cb (times 0)
      (make_request_body Method.GET ("/venues") none true cache
        NetOutcome.connError) = _
    rw [hbody]
    exact call_closed_ret cb hst (times 0) _
  have hstepcb : (make_request Method.GET ("/venues") none true cache
      (fun _ => NetOutcome.connError) times jitters cb).cb = cb := by
    rw [h1]
  refine ⟨h1, rfl, by decide, ?_⟩
  have hfold : ∀ n : Nat, (List.range n).foldl
      (fun c _ => (make_request Method.GET ("/venues") none true cache
        (fun _ => NetOutcome.connError) times jitters c).cb) cb = cb := by
    intro n
    induction n with
    | zero => rfl
    | succ k ihk =>
        rw [List.range_succ, List.foldl_append, ihk]
        simpa using hstepcb
  exact hfold 5

theorem C7_witness :
    make_request Method.GET ("/venues") none true
        [("venues", Payload.list [Payload.str "cached-venue"], 0)]
        (fun _ => NetOutcome.connError) (fun _ => 0) (fun _ => 1/5)
        (CircuitBreaker.init 5 60) =
      { result := RunResult.ret (some (Payload.list [])), funcInvocations := 1,
        delays := [], cb := CircuitBreaker.init 5 60 } :=
  (C7_conn_errors_fallback_breaker_closed
      [("venues", Payload.list [Payload.str "cached-venue"], 0)]
      (fun _ => 0) (fun _ => 1/5) (CircuitBreaker.init 5 60) rfl rfl).1

/-! ### C8: shape of fallback results -/

/-- C8: evaluation of the fallback chain at the failing input.  The endpoint
`"/bookings/search/"` (used by `search_bookings`, whose annotated return type
is a list) is a known collection endpoint; with an empty cache and no
`fallback_map` entry, `try_fallback_strategies` falls through to
`get_empty_response_structure`, whose `endswith("s")` heuristic fails on the
trailing slash and yields `None` — an absent value where an empty collection
is promised.  By contrast `"/venues"` does get the empty collection. -/
theorem C8_code_eval :
    try_fallback_strategies [] ("/bookings/search/") (some "searchparams") = none ∧
    get_fallback_data ("/bookings/search/") = none ∧
    get_empty_response_structure ("/bookings/search/") = none ∧
    get_empty_response_structure ("/venues") = some (Payload.list []) ∧
    try_fallback_strategies [] ("/venues") none = some (Payload.list []) :=
  ⟨rfl, rfl, rfl, rfl, rfl⟩

/-! ### C9: cache TTL behaviour -/

theorem cacheLookup_insert (c : Cache) (k : String) (v : Payload) (t : ℚ) :
    cacheLookup (cacheInsert c k v t) k = some (v, t) := by
  induction c with
  | nil => simp [cacheInsert, cacheLookup]
  | cons hd tl ih =>
      rcases hd with ⟨k0, v0, t0⟩
      by_cases hk : k0 = k
      · simp [cacheInsert, cacheLookup, hk]
      · simp [cacheInsert, cacheLookup, hk, ih]

/-- C9: after `api_cache[k] = (v, t0)`, a cache-wrapped call at time
`t0 + t` returns the stored `v` without consulting the wrapped function
whenever `t < CACHE_DURATION`, and behaves as a miss whenever
`t ≥ CACHE_DURATION`: the wrapped function's result is returned, and if that
result is a value the expired entry is overwritten with it at the new
timestamp. -/
theorem C9_cache_ttl (c : Cache) (k : String) (v : Payload) (t0 t : ℚ)
    (funcResult : Option Payload) (ht : 0 ≤ t) :
    (t < CACHE_DURATION →
      with_cache (cacheInsert c k v t0) k (t0 + t) funcResult =
        (some v, cacheInsert c k v t0)) ∧
    (CACHE_DURATION ≤ t →
      (with_cache (cacheInsert c k v t0) k (t0 + t) funcResult).1 = funcResult ∧
      (∀ w, funcResult = some w →
        cacheLookup (with_cache (cacheInsert c k v t0) k (t0 + t) funcResult).2 k =
          some (w, t0 + t))) := by
  have hl := cacheLookup_insert c k v t0
  constructor
  · intro hlt
    have harith : t0 + t - t0 < CACHE_DURATION := by
      rw [add_sub_cancel_left]
      exact hlt
    unfold with_cache
    simp only [hl]
    rw [if_pos harith]
  · intro hge
    have harith : ¬ (t0 + t - t0 < CACHE_DURATION) := by
      rw [add_sub_cancel_left]
      exact not_lt.mpr hge
    unfold with_cache
    simp only [hl]
    rw [if_neg harith]
    cases funcResult with
    | none =>
        refine ⟨rfl, ?_⟩
        intro w hw
        cases hw
    | some r =>
        refine ⟨rfl, ?_⟩
        intro w hw
        cases hw
        exact cacheLookup_insert (cacheInsert c k v t0) k r (t0 + t)

theorem C9_witness :
    with_cache (cacheInsert [] ("k") (Payload.str "a") 0) ("k") (0 + 10) none =
      (some (Payload.str "a"), cacheInsert [] ("k") (Payload.str "a") 0) ∧
    (with_cache (cacheInsert [] ("k") (Payload.str "a") 0) ("k") (0 + 45)
      (some (Payload.str "b"))).1 = some (Payload.str "b") :=
  ⟨(C9_cache_ttl [] ("k") (Payload.str "a") 0 10 none (by norm_num)).1
      (by norm_num [CACHE_DURATION]),
   ((C9_cache_ttl [] ("k") (Payload.str "a") 0 45 (some (Payload.str "b"))
      (by norm_num)).2 (by norm_num [CACHE_DURATION])).1⟩

/-! ### C10: only actual values are cached -/

/-- C10: the cache-wrapped call never creates or refreshes an entry when the
wrapped function produced `None` (the cache is returned unchanged), and any
run either leaves the cache unchanged or stores exactly the value the wrapped
function returned, under the derived key at the current time — so every cache
entry comes from a call that produced an actual value. -/
theorem C10_none_never_cached (c : Cache) (k : String) (now : ℚ)
    (funcResult : Option Payload) :
    (with_cache c k now none).2 = c ∧
    ((with_cache c k now funcResult).2 = c ∨
      ∃ w, funcResult = some w ∧
        (with_cache c k now funcResult).2 = cacheInsert c k w now) := by
  constructor
  · unfold with_cache
    cases hl : cacheLookup c k with
    | none => rfl
    | some p =>
        rcases p with ⟨pv, pt⟩
        dsimp only
        by_cases hc : now - pt < CACHE_DURATION
        · rw [if_pos hc]
        · rw [if_neg hc]
  · unfold with_cache
    cases hl : cacheLookup c k with
    | none =>
        cases funcResult with
        | none => exact Or.inl rfl
        | some r => exact Or.inr ⟨r, rfl, rfl⟩
    | some p =>
        rcases p with ⟨pv, pt⟩
        dsimp only
        by_cases hc : now - pt < CACHE_DURATION
        · rw [if_pos hc]
          exact Or.inl rfl
        · rw [if_neg hc]
          cases funcResult with
          | none => exact Or.inl rfl
          | some r => exact Or.inr ⟨r, rfl, rfl⟩

end ApiClient
